import Mathlib

/-!
Verification development for the vdator paste parser and codec tables.

Shallow embedding of `src/vdator/paste_parser.py` and
`src/vdator/codecs_parser.py`.  Python strings are modelled as Lean
`String` (a wrapper around `List Char`); every Python string operation
used by the source is re-implemented below on the character list, so
that all definitions are executable.  Fallible operations (Python
expressions that can raise `IndexError`) return `Option`.

The track formatter (`bdinfo_parser.py`) is an external collaborator of
the parser: the parser only calls its four functions and appends their
results.  It is modelled as a structure of opaque string functions and
passed to `parse` as a parameter, exactly as `PasteParser.__init__`
stores the `bdinfo_parser` object.
-/

/-- Python whitespace characters stripped by `str.strip()` (ASCII part). -/
def isPySpace (c : Char) : Bool :=
  c = ' ' || c = '\t' || c = '\n' || c = '\r' || c = '\x0b' || c = '\x0c'

/-- `str.strip()` on a character list: drop leading and trailing whitespace. -/
def stripChars (cs : List Char) : List Char :=
  ((cs.dropWhile isPySpace).reverse.dropWhile isPySpace).reverse

/-- Python `s.strip()`. -/
def pyStrip (s : String) : String := String.mk (stripChars s.toList)

/-- Python `s.lower()` (ASCII, which is all the source compares). -/
def pyLower (s : String) : String := String.mk (s.toList.map Char.toLower)

/-- Python `s.startswith(p)` as a character-list prefix test. -/
def strStarts (s p : String) : Bool := p.toList.isPrefixOf s.toList

/-- Contiguous-substring test on character lists. -/
def isSubChars (n : List Char) : List Char → Bool
  | [] => n.isEmpty
  | c :: rest => n.isPrefixOf (c :: rest) || isSubChars n rest

/-- Python `needle in haystack` (substring containment, case-sensitive). -/
def strContains (haystack needle : String) : Bool :=
  isSubChars needle.toList haystack.toList

/-- Python `pat in s.lower()` for an already lower-case `pat`. -/
def containsCI (pat s : String) : Bool := strContains (pyLower s) pat

/-- Python `s.split(":", 1)[1]`: the text after the first colon.
`none` models the `IndexError` raised when `s` has no colon. -/
def afterColon (s : String) : Option String :=
  match s.toList.dropWhile (· ≠ ':') with
  | [] => none
  | _ :: rest => some (String.mk rest)

/-- Python `l = l.split("(")[0] if "(" in l else l`: text before the
first opening parenthesis (the whole string when there is none). -/
def takeBeforeParen (s : String) : String :=
  if s.toList.contains '(' then String.mk (s.toList.takeWhile (· ≠ '('))
  else s

/-- Python `s.rstrip(")")`: remove all trailing `)` characters. -/
def pyRstripParen (s : String) : String :=
  String.mk ((s.toList.reverse.dropWhile (· = ')')).reverse)

/-- Python `s.split("/")` (all occurrences, keeping empty pieces). -/
def splitSlash (s : String) : List String :=
  (s.toList.splitOn '/').map String.mk

/-- Python `"/".join(xs)`. -/
def joinSlash : List String → String
  | [] => ""
  | [x] => x
  | x :: xs => x ++ "/" ++ joinSlash xs

/-- Python `text.splitlines()` for the line boundaries the source can
meet in practice: `\r\n`, `\r` and `\n`; no empty trailing line. -/
def splitLinesAux : List Char → List Char → List (List Char)
  | [], [] => []
  | [], acc => [acc.reverse]
  | '\r' :: '\n' :: rest, acc => acc.reverse :: splitLinesAux rest []
  | '\r' :: rest, acc => acc.reverse :: splitLinesAux rest []
  | '\n' :: rest, acc => acc.reverse :: splitLinesAux rest []
  | c :: rest, acc => splitLinesAux rest (c :: acc)

/-- Python `text.splitlines()`. -/
def splitlines (s : String) : List String :=
  (splitLinesAux s.toList []).map String.mk

/-- The literal of the regex `r"\(ac3 embedded:"` used by the source. -/
def ac3Pat : List Char := "(ac3 embedded:".toList

/-- Case-insensitive `re.split(r"\(ac3 embedded:", s)`: split `s` at
every (non-overlapping, left-to-right) occurrence of the literal
pattern, comparing case-insensitively.  The extra `Nat` argument is
structural-recursion fuel: every call keeps `fuel ≥ cs.length` (a step
consumes one fuel and at least one — in the match branch
`ac3Pat.length` — characters), so the `0`-fuel fallback is never
reached from `ac3Split`. -/
def ac3SplitAux : Nat → List Char → List Char → List (List Char)
  | _, [], acc => [acc.reverse]
  | 0, _ :: _, acc => [acc.reverse]
  | fuel + 1, c :: rest, acc =>
    if (ac3Pat.map Char.toLower).isPrefixOf ((c :: rest).map Char.toLower) then
      acc.reverse :: ac3SplitAux fuel ((c :: rest).drop ac3Pat.length) []
    else
      ac3SplitAux fuel rest (c :: acc)

/-- `re.split(r"\(ac3 embedded:", s, flags=re.IGNORECASE)`. -/
def ac3Split (s : String) : List String :=
  (ac3SplitAux s.toList.length s.toList []).map String.mk

/-! ## Data model (`paste_parser.py`) -/

/-- `BDInfoType` from `paste_parser.py`. -/
inductive BDInfoType
  | QUICK_SUMMARY
  | PLAYLIST_REPORT
deriving DecidableEq, Repr

/-- `PasteParser.Section`. -/
inductive Section
  | QUICK_SUMMARY
  | MEDIAINFO
  | PLAYLIST_REPORT
  | EAC3TO_LOG
deriving DecidableEq, Repr

/-- `PasteParser.Section2` (the playlist-report sub-state). -/
inductive Section2
  | PLAYLIST_VIDEO
  | PLAYLIST_AUDIO
  | PLAYLIST_SUBTITLES
deriving DecidableEq, Repr

/-- `PasteParser.Section3` (the playlist-report inner state, set by
separator rows). -/
inductive Section3
  | PLAYLIST_INNER_VIDEO
  | PLAYLIST_INNER_AUDIO
deriving DecidableEq, Repr

/-- The whole loop state of `PasteParser.parse`: the accumulators
(`bdinfo` dict, `mediainfo`, `eac3to`) together with the control
variables (`sect`, `sect2`, `sect3`, `ignore_next_lines`,
`did_first_mediainfo`).  The `eac3to_index` variable of the source
always equals `eac3to.length - 1`, so appends go to the last log. -/
structure State where
  video : List String
  audio : List String
  subtitle : List String
  tp : Option BDInfoType
  mediainfo : List String
  eac3to : List (List String)
  sect : Option Section
  sect2 : Option Section2
  sect3 : Option Section3
  ignore_next : Bool
  did_first_mediainfo : Bool
deriving DecidableEq, Repr

/-- The state at the top of `PasteParser.parse`. -/
def initState : State :=
  { video := [], audio := [], subtitle := [], tp := none, mediainfo := []
    eac3to := [], sect := none, sect2 := none, sect3 := none
    ignore_next := false, did_first_mediainfo := false }

/-- The environment-derived module constants of `paste_parser.py`:
`IGNORE_AFTER_LINE`, `IGNORE_AFTER_LINE_METHOD` and
`IGNORE_UNTIL_BLANK_LINE_PREFIXES` (already stripped/split as the
module-level code does). -/
structure Config where
  ignore_after_line : String
  ignore_after_line_method : String
  ignore_until_blank_line_prefixes : List String
deriving DecidableEq, Repr

/-- The configuration produced by empty environment values (absent
truncation configuration): an unset `IGNORE_UNTIL_BLANK_LINE_PREFIXES`
defaults to `""`, whose comma-split is `[""]`. -/
def cfgOff : Config :=
  { ignore_after_line := "", ignore_after_line_method := ""
    ignore_until_blank_line_prefixes := [""] }

/-- The external track formatter (`bdinfo_parser.py`, a collaborator
outside the parser): the four functions `PasteParser.parse` calls on
`self.bdinfo_parser`.  A playlist-row formatter result equal to `""`
is falsy in Python and discards the row. -/
structure BDInfoParser where
  format_track_name : String → String
  format_video_track_name : String → String
  playlist_report_format_video_track_name : String → String
  playlist_report_format_audio_track_name : String → String

/-- The identity formatter, used to evaluate the parser on concrete
inputs without external formatting. -/
def idF : BDInfoParser := ⟨id, id, id, id⟩

/-! ## `PasteParser` -/

/-- `PasteParser._isIgnoreAfterLine`. -/
def isIgnoreAfterLine (cfg : Config) (l : String) : Bool :=
  if cfg.ignore_after_line_method = "equals" then
    cfg.ignore_after_line = l
  else if cfg.ignore_after_line_method = "contains" then
    strContains l cfg.ignore_after_line
  else false

/-- The guard `IGNORE_UNTIL_BLANK_LINE_PREFIXES and
IGNORE_UNTIL_BLANK_LINE_PREFIXES[0] != ""` (Python list truthiness plus
the first-element check). -/
def skipGuard (cfg : Config) : Bool :=
  match cfg.ignore_until_blank_line_prefixes with
  | [] => false
  | x :: _ => x ≠ ""

/-- The inner loop `for x in IGNORE_UNTIL_BLANK_LINE_PREFIXES:
if l3.startswith(x): ...` over `l3 = l.strip().lower()`. -/
def matchesSkip (cfg : Config) (l : String) : Bool :=
  cfg.ignore_until_blank_line_prefixes.any
    (fun x => strStarts (pyLower (pyStrip l)) x)

/-- Lines 80–88 of `parse`: set `ignore_next_lines` when the guarded
skip-prefix scan matches. -/
def applySkip (cfg : Config) (st : State) (l : String) : State :=
  if skipGuard cfg && matchesSkip cfg l then { st with ignore_next := true }
  else st

/-- Lines 92–109 of `parse`: the section-determination `if/elif` chain
over `l2 = l.strip().lower()`. -/
def updSect (st : State) (l2 : String) : State :=
  if strStarts l2 "quick summary" then
    { st with sect := some Section.QUICK_SUMMARY, tp := some BDInfoType.QUICK_SUMMARY }
  else if strStarts l2 "playlist report" then
    { st with sect := some Section.PLAYLIST_REPORT, tp := some BDInfoType.PLAYLIST_REPORT }
  else if strStarts l2 "eac3to v" then
    { st with sect := some Section.EAC3TO_LOG, eac3to := st.eac3to ++ [[]] }
  else if strStarts l2 "general" then
    if st.did_first_mediainfo then { st with sect := none }
    else { st with sect := some Section.MEDIAINFO, did_first_mediainfo := true }
  else st

/-- Lines 111–142 of `parse`: the Quick Summary branch.  `none` models
the `IndexError` of `audio_parts[1]` when the `"ac3 embedded"` guard
matched but the regex `\(ac3 embedded:` did not split the text (the
source appends `audio_parts[0]` before crashing; since the exception
propagates out of `parse`, no result is returned either way). -/
def dispatchQS (f : BDInfoParser) (st : State) (l l2 : String) : Option State :=
  if strStarts l2 "video:" then
    match afterColon l with
    | none => none
    | some r => some { st with video := st.video ++ [f.format_video_track_name r] }
  else if strStarts l2 "audio:" then
    match afterColon l with
    | none => none
    | some r =>
      if containsCI "ac3 embedded" (pyStrip r) then
        match ac3Split (pyStrip r) with
        | p0 :: p1 :: _ =>
          some { st with audio := st.audio ++
            [f.format_track_name p0,
             f.format_track_name ("Compatibility Track / Dolby Digital Audio / "
               ++ pyRstripParen (pyStrip p1))] }
        | _ => none
      else
        match afterColon (pyStrip (takeBeforeParen l)) with
        | none => none
        | some t => some { st with audio := st.audio ++ [f.format_track_name t] }
  else if strStarts l2 "subtitle:" then
    match afterColon l with
    | none => none
    | some r => some { st with subtitle := st.subtitle ++ [f.format_track_name r] }
  else some st

/-- The `if/elif` chain of lines 146–151 setting `sect2` from a playlist
heading. -/
def headingSect2 (s2 : Option Section2) (l2 : String) : Option Section2 :=
  if strStarts l2 "video:" then some Section2.PLAYLIST_VIDEO
  else if strStarts l2 "audio:" then some Section2.PLAYLIST_AUDIO
  else if strStarts l2 "subtitles:" then some Section2.PLAYLIST_SUBTITLES
  else s2

/-- Lines 188–200 of `parse`: the `"ac3 embedded"` handling of a
playlist audio row, applied after the (possible) append of the
formatted row itself.  `none` models the `IndexError` of
`audio_parts[1]` when the regex did not split. -/
def prAudioAc3 (f : BDInfoParser) (st : State) (l : String) : Option State :=
  if containsCI "ac3 embedded" l then
    match ac3Split l with
    | _ :: p1 :: _ =>
      some { st with audio := st.audio ++
        [f.format_track_name ("Compatibility Track / Dolby Digital Audio / "
           ++ pyRstripParen (pyStrip (joinSlash (splitSlash p1).dropLast)))] }
    | _ => none
  else some st

/-- Lines 153–200 of `parse`: the Playlist Report branch after `sect2`
has been updated from a possible heading. -/
def dispatchPRrows (f : BDInfoParser) (st : State) (l l2 : String) :
    Option State :=
  if strStarts l2 "-----" then
    some (if st.sect2 = some Section2.PLAYLIST_VIDEO then
            { st with sect3 := some Section3.PLAYLIST_INNER_VIDEO }
          else if st.sect2 = some Section2.PLAYLIST_AUDIO then
            { st with sect3 := some Section3.PLAYLIST_INNER_AUDIO }
          else st)
  else if strStarts l "-" then some st
  else if st.sect2 = some Section2.PLAYLIST_VIDEO
          ∧ st.sect3 = some Section3.PLAYLIST_INNER_VIDEO then
    some (if f.playlist_report_format_video_track_name l ≠ "" then
            { st with video :=
                st.video ++ [f.playlist_report_format_video_track_name l] }
          else st)
  else if st.sect2 = some Section2.PLAYLIST_AUDIO
          ∧ st.sect3 = some Section3.PLAYLIST_INNER_AUDIO then
    prAudioAc3 f
      (if f.playlist_report_format_audio_track_name l ≠ "" then
         { st with audio :=
             st.audio ++ [f.playlist_report_format_audio_track_name l] }
       else st) l
  else some st

/-- Lines 144–200 of `parse`: the Playlist Report branch. -/
def dispatchPR (f : BDInfoParser) (st : State) (l l2 : String) : Option State :=
  dispatchPRrows f { st with sect2 := headingSect2 st.sect2 l2 } l l2

/-- Append to the last opened eac3to log (`eac3to[eac3to_index]`);
`none` models the `IndexError` on an empty log list (unreachable from
`initState`, where `sect` only becomes `EAC3TO_LOG` after a log is
opened). -/
def appendLast : List (List String) → String → Option (List (List String))
  | [], _ => none
  | [xs], l => some [xs ++ [l]]
  | xs :: rest, l => (appendLast rest l).map (xs :: ·)

/-- Lines 205–209 of `parse`: the eac3to-log branch. -/
def dispatchEAC (st : State) (l : String) : Option State :=
  if strStarts l "Done." then some { st with sect := none }
  else (appendLast st.eac3to l).map (fun e => { st with eac3to := e })

/-- The per-section dispatch (lines 111–209 of `parse`), after the
section-determination chain has run. -/
def classifyAt (f : BDInfoParser) (st : State) (l l2 : String) : Option State :=
  match st.sect with
  | some Section.QUICK_SUMMARY => dispatchQS f st l l2
  | some Section.PLAYLIST_REPORT => dispatchPR f st l l2
  | some Section.MEDIAINFO => some { st with mediainfo := st.mediainfo ++ [l] }
  | some Section.EAC3TO_LOG => dispatchEAC st l
  | none => some st

/-- Section determination followed by the per-section dispatch
(lines 92–209 of `parse`). -/
def classify (f : BDInfoParser) (st : State) (l l2 : String) : Option State :=
  classifyAt f (updSect st l2) l l2

/-- One iteration of the `for l in lines` loop body, except for the
`break` on `_isIgnoreAfterLine` which is handled by `runLines`. -/
def step (cfg : Config) (f : BDInfoParser) (st : State) (l : String) :
    Option State :=
  if pyStrip l = "" then some { st with ignore_next := false }
  else if st.ignore_next then some st
  else classify f (applySkip cfg st l) l (pyLower (pyStrip l))

/-- The `for l in lines` loop: stop at the first line for which
`_isIgnoreAfterLine` holds, returning the accumulated state. -/
def runLines (cfg : Config) (f : BDInfoParser) :
    State → List String → Option State
  | st, [] => some st
  | st, l :: ls =>
    if isIgnoreAfterLine cfg l then some st
    else
      match step cfg f st l with
      | none => none
      | some st' => runLines cfg f st' ls

/-- `PasteParser.parse`: `none` models an uncaught exception. -/
def parse (cfg : Config) (f : BDInfoParser) (text : String) : Option State :=
  runLines cfg f initState (splitlines text)

/-! ## `CodecsParser` (`codecs_parser.py`)

The Python dicts have pairwise distinct keys, so dict lookup is
first-match association-list lookup; the merged `codec_ext` dict
(`{**video, **audio, **sub, **chapter}`) is the concatenation of the
four tables.  The Python methods return `False` for a missing key,
modelled as `none`.  All comparisons are exact and case-sensitive
(`String` equality), and the tables are plain immutable definitions. -/

/-- Dict lookup on an association list with distinct keys. -/
def dictGet : List (String × String) → String → Option String
  | [], _ => none
  | (k, v) :: rest, key => if key = k then some v else dictGet rest key

/-- `self.video_codecs`. -/
def video_codecs : List (String × String) :=
  [("h264/AVC", ".h264"), ("h265/HEVC", ".h265"), ("MPEG1", ".m1v"),
   ("MPEG2", ".m2v"), ("VC-1", ".vc1")]

/-- `self.audio_codecs` (note: the source maps `E-AC3` to `eac3`
without a leading dot). -/
def audio_codecs : List (String × String) :=
  [("AC3", ".ac3"), ("DTS Master Audio", ".dtsma"), ("DTS", ".dts"),
   ("E-AC3", "eac3"), ("FLAC Audio", ".flac"), ("RAW/PCM", ".pcm"),
   ("TrueHD/AC3", ".thd+ac3")]

/-- `self.audio_codec_title_names`. -/
def audio_codec_title_names : List (String × String) :=
  [("DTS Audio", "DTS"), ("DTS-HD Master Audio", "DTS-HD.MA"),
   ("Dolby Digital Audio", "DD"), ("Dolby TrueHD Audio", "TrueHD"),
   ("FLAC Audio", "FLAC")]

/-- `self.sub_codecs`. -/
def sub_codecs : List (String × String) :=
  [("Subtitle (PGS)", ".sup"), ("Subtitle (DVD)", ".sup")]

/-- `self.chapter_codecs`. -/
def chapter_codecs : List (String × String) :=
  [("Chapters", ".txt")]

/-- `self.codec_ext = {**video, **audio, **sub, **chapter}`. -/
def codec_ext : List (String × String) :=
  video_codecs ++ audio_codecs ++ sub_codecs ++ chapter_codecs

/-- `CodecsParser.is_video`. -/
def is_video (codec : String) : Bool := (dictGet video_codecs codec).isSome

/-- `CodecsParser.is_audio`. -/
def is_audio (codec : String) : Bool := (dictGet audio_codecs codec).isSome

/-- `CodecsParser.is_sub`. -/
def is_sub (codec : String) : Bool := (dictGet sub_codecs codec).isSome

/-- `CodecsParser.is_chapter`. -/
def is_chapter (codec : String) : Bool := (dictGet chapter_codecs codec).isSome

/-- `CodecsParser.get_codec_ext`: `none` models the Python `False`
returned when `codec not in self.codec_ext`. -/
def get_codec_ext (codec : String) : Option String :=
  match dictGet codec_ext codec with
  | none => none
  | some e => some e

/-- `CodecsParser.get_audio_codec_title_name`: `none` models `False`. -/
def get_audio_codec_title_name (codec : String) : Option String :=
  match dictGet audio_codec_title_names codec with
  | none => none
  | some e => some e

/-! ## Truncation Policy Evaluator (spec §4.3)

The code has no reified evaluator; it applies `_isIgnoreAfterLine`
(hard cutoff, lines 67–69) and the guarded skip-prefix scan
(lines 80–88) separately.  The decision below composes exactly those
two source predicates in the source's order. -/

/-- The spec's per-line truncation decision. -/
inductive PolicyDecision
  | HardStop
  | SkipStart
  | Continue
deriving DecidableEq, Repr

/-- The Truncation Policy Evaluator: hard cutoff first
(`_isIgnoreAfterLine`), then the guarded skip-prefix scan. -/
def truncationDecision (cfg : Config) (l : String) : PolicyDecision :=
  if isIgnoreAfterLine cfg l then PolicyDecision.HardStop
  else if skipGuard cfg && matchesSkip cfg l then PolicyDecision.SkipStart
  else PolicyDecision.Continue

/-! ## Concrete states and configurations used in witnesses -/

/-- The state right after a `quick summary` heading line. -/
def stQS : State :=
  { initState with sect := some Section.QUICK_SUMMARY
                   tp := some BDInfoType.QUICK_SUMMARY }

/-- A state inside a Playlist Report audio sub-table. -/
def stPR : State :=
  { initState with sect := some Section.PLAYLIST_REPORT
                   sect2 := some Section2.PLAYLIST_AUDIO
                   sect3 := some Section3.PLAYLIST_INNER_AUDIO }

/-- A state inside an open eac3to log. -/
def stE : State :=
  { initState with sect := some Section.EAC3TO_LOG
                   eac3to := [["eac3to v1.0"]] }

/-- A configuration with the single skip-prefix `note`. -/
def cfgNote : Config :=
  { ignore_after_line := "", ignore_after_line_method := ""
    ignore_until_blank_line_prefixes := ["note"] }

/-- A configuration whose prefix list is non-empty and contains the
usable prefix `note`, but whose first entry is the empty string. -/
def cfgBadFirst : Config :=
  { ignore_after_line := "", ignore_after_line_method := ""
    ignore_until_blank_line_prefixes := ["", "note"] }

/-! ## Helper lemmas -/

theorem isPrefixOf_trichotomy :
    ∀ (xs p q : List Char), p.isPrefixOf xs = true → q.isPrefixOf xs = true →
      p.isPrefixOf q = true ∨ q.isPrefixOf p = true := by
  intro xs
  induction xs with
  | nil =>
    intro p q hp hq
    cases p with
    | nil => exact Or.inl (by simp [List.isPrefixOf])
    | cons a as => simp [List.isPrefixOf] at hp
  | cons x xs ih =>
    intro p q hp hq
    cases p with
    | nil => exact Or.inl (by simp [List.isPrefixOf])
    | cons a as =>
      cases q with
      | nil => exact Or.inr (by simp [List.isPrefixOf])
      | cons b bs =>
        simp only [List.isPrefixOf, Bool.and_eq_true, beq_iff_eq] at hp hq
        obtain ⟨rfl, hp⟩ := hp
        obtain ⟨rfl, hq⟩ := hq
        rcases ih as bs hp hq with h | h
        · exact Or.inl (by simp [List.isPrefixOf, h])
        · exact Or.inr (by simp [List.isPrefixOf, h])

/-- Two incomparable literals cannot both be prefixes of one line. -/
theorem strStarts_excl (s a b : String)
    (hab : a.toList.isPrefixOf b.toList = false)
    (hba : b.toList.isPrefixOf a.toList = false)
    (h : strStarts s a = true) : strStarts s b = false := by
  unfold strStarts at *
  cases hsb : b.toList.isPrefixOf s.toList
  · rfl
  · rcases isPrefixOf_trichotomy s.toList a.toList b.toList h hsb with hc | hc
    · rw [hab] at hc; exact absurd hc (by simp)
    · rw [hba] at hc; exact absurd hc (by simp)

theorem dropWhile_append_last (p : Char → Bool) :
    ∀ (xs : List Char) (c : Char), p c = false →
      ∃ zs, (xs ++ [c]).dropWhile p = zs ++ [c] := by
  intro xs
  induction xs with
  | nil => intro c hc; exact ⟨[], by simp [List.dropWhile, hc]⟩
  | cons x xs ih =>
    intro c hc
    by_cases hx : p x
    · obtain ⟨zs, hzs⟩ := ih c hc
      exact ⟨zs, by simp [List.dropWhile, hx, hzs]⟩
    · exact ⟨x :: xs, by simp [List.dropWhile, hx]⟩

theorem stripChars_cons_head (c : Char) (t : List Char)
    (hc : isPySpace c = false) : ∃ t', stripChars (c :: t) = c :: t' := by
  unfold stripChars
  rw [List.dropWhile_cons_of_neg (by simp [hc])]
  have hrev : (c :: t).reverse = t.reverse ++ [c] := by simp
  rw [hrev]
  obtain ⟨zs, hzs⟩ := dropWhile_append_last isPySpace t.reverse c hc
  exact ⟨zs.reverse, by rw [hzs]; simp⟩

/-- A raw line beginning with `-` still begins with `-` after
stripping and lower-casing. -/
theorem dash_strip_lower (l : String) (h : strStarts l "-" = true) :
    strStarts (pyLower (pyStrip l)) "-" = true := by
  have h' : List.isPrefixOf ['-'] l.toList = true := h
  show List.isPrefixOf ['-'] ((stripChars l.toList).map Char.toLower) = true
  cases hl : l.toList with
  | nil => rw [hl] at h'; simp [List.isPrefixOf] at h'
  | cons c cs =>
    rw [hl] at h'
    simp only [List.isPrefixOf, Bool.and_eq_true, beq_iff_eq] at h'
    obtain ⟨hc, -⟩ := h'
    subst hc
    obtain ⟨t', ht'⟩ := stripChars_cons_head '-' cs (by decide)
    rw [ht', List.map_cons]
    simp [List.isPrefixOf]

theorem applySkip_frame (cfg : Config) (st : State) (l : String) :
    (applySkip cfg st l).video = st.video ∧
    (applySkip cfg st l).audio = st.audio ∧
    (applySkip cfg st l).subtitle = st.subtitle ∧
    (applySkip cfg st l).tp = st.tp ∧
    (applySkip cfg st l).mediainfo = st.mediainfo ∧
    (applySkip cfg st l).eac3to = st.eac3to ∧
    (applySkip cfg st l).sect = st.sect ∧
    (applySkip cfg st l).sect2 = st.sect2 ∧
    (applySkip cfg st l).sect3 = st.sect3 ∧
    (applySkip cfg st l).did_first_mediainfo = st.did_first_mediainfo := by
  unfold applySkip
  split <;> simp

theorem updSect_frame (st : State) (l2 : String) :
    (updSect st l2).video = st.video ∧
    (updSect st l2).audio = st.audio ∧
    (updSect st l2).subtitle = st.subtitle ∧
    (updSect st l2).mediainfo = st.mediainfo ∧
    (updSect st l2).sect2 = st.sect2 ∧
    (updSect st l2).sect3 = st.sect3 ∧
    (updSect st l2).ignore_next = st.ignore_next := by
  unfold updSect
  repeat' split
  all_goals simp

theorem dispatchQS_frame {f : BDInfoParser} {st : State} {l l2 : String}
    {st' : State} (h : dispatchQS f st l l2 = some st') :
    st'.mediainfo = st.mediainfo ∧ st'.eac3to = st.eac3to ∧
    st'.sect = st.sect ∧ st'.sect2 = st.sect2 ∧ st'.sect3 = st.sect3 ∧
    st'.ignore_next = st.ignore_next ∧
    st'.did_first_mediainfo = st.did_first_mediainfo ∧ st'.tp = st.tp := by
  unfold dispatchQS at h
  repeat' split at h
  all_goals first
    | exact Option.noConfusion h
    | (rw [Option.some.injEq] at h; subst h;
       exact ⟨rfl, rfl, rfl, rfl, rfl, rfl, rfl, rfl⟩)

theorem prAudioAc3_frame {f : BDInfoParser} {st : State} {l : String}
    {st' : State} (h : prAudioAc3 f st l = some st') :
    st'.video = st.video ∧ st'.subtitle = st.subtitle ∧
    st'.mediainfo = st.mediainfo ∧ st'.eac3to = st.eac3to ∧
    st'.sect = st.sect ∧ st'.sect2 = st.sect2 ∧ st'.sect3 = st.sect3 ∧
    st'.ignore_next = st.ignore_next ∧
    st'.did_first_mediainfo = st.did_first_mediainfo ∧ st'.tp = st.tp := by
  unfold prAudioAc3 at h
  repeat' split at h
  all_goals first
    | exact Option.noConfusion h
    | (rw [Option.some.injEq] at h; subst h;
       exact ⟨rfl, rfl, rfl, rfl, rfl, rfl, rfl, rfl, rfl, rfl⟩)

theorem dispatchPRrows_frame {f : BDInfoParser} {st : State} {l l2 : String}
    {st' : State} (h : dispatchPRrows f st l l2 = some st') :
    st'.mediainfo = st.mediainfo ∧ st'.eac3to = st.eac3to ∧
    st'.sect = st.sect ∧ st'.subtitle = st.subtitle ∧
    st'.sect2 = st.sect2 ∧ st'.ignore_next = st.ignore_next ∧
    st'.did_first_mediainfo = st.did_first_mediainfo ∧ st'.tp = st.tp := by
  unfold dispatchPRrows at h
  repeat' split at h
  all_goals first
    | exact Option.noConfusion h
    | (rw [Option.some.injEq] at h; subst h;
       exact ⟨rfl, rfl, rfl, rfl, rfl, rfl, rfl, rfl⟩)
    | (obtain ⟨-, hsub, h3, h4, h5, h6, h7, h8, h9, h10⟩ := prAudioAc3_frame h;
       simp_all)

theorem dispatchPR_frame {f : BDInfoParser} {st : State} {l l2 : String}
    {st' : State} (h : dispatchPR f st l l2 = some st') :
    st'.mediainfo = st.mediainfo ∧ st'.eac3to = st.eac3to ∧
    st'.sect = st.sect ∧ st'.subtitle = st.subtitle ∧
    st'.ignore_next = st.ignore_next ∧
    st'.did_first_mediainfo = st.did_first_mediainfo ∧ st'.tp = st.tp := by
  unfold dispatchPR at h
  obtain ⟨h1, h2, h3, h4, h5, h6, h7, h8⟩ := dispatchPRrows_frame h
  exact ⟨h1, h2, h3, h4, h6, h7, h8⟩

theorem appendLast_snoc (xs : List (List String)) (ys : List String)
    (l : String) : appendLast (xs ++ [ys]) l = some (xs ++ [ys ++ [l]]) := by
  induction xs with
  | nil => rfl
  | cons x xs ih =>
    have hstep : appendLast (x :: (xs ++ [ys])) l
        = (appendLast (xs ++ [ys]) l).map (x :: ·) := by
      cases h : xs ++ [ys] with
      | nil => exact absurd h (by simp)
      | cons a b => rfl
    rw [List.cons_append, hstep, ih]
    rfl

theorem dispatchEAC_frame {st : State} {l : String} {st' : State}
    (h : dispatchEAC st l = some st') :
    st'.video = st.video ∧ st'.audio = st.audio ∧
    st'.subtitle = st.subtitle ∧ st'.mediainfo = st.mediainfo ∧
    st'.tp = st.tp ∧ st'.sect2 = st.sect2 ∧ st'.sect3 = st.sect3 ∧
    st'.ignore_next = st.ignore_next ∧
    st'.did_first_mediainfo = st.did_first_mediainfo ∧
    (st'.sect = none ∨ st'.sect = st.sect) := by
  unfold dispatchEAC at h
  split at h
  · rw [Option.some.injEq] at h; subst h
    exact ⟨rfl, rfl, rfl, rfl, rfl, rfl, rfl, rfl, rfl, Or.inl rfl⟩
  · cases happ : appendLast st.eac3to l with
    | none => rw [happ] at h; exact Option.noConfusion h
    | some e =>
      rw [happ] at h
      rw [Option.map_some', Option.some.injEq] at h
      subst h
      exact ⟨rfl, rfl, rfl, rfl, rfl, rfl, rfl, rfl, rfl, Or.inr rfl⟩

theorem updSect_mi {st : State} (l2 : String)
    (hd : st.did_first_mediainfo = true)
    (hs : st.sect ≠ some Section.MEDIAINFO) :
    (updSect st l2).did_first_mediainfo = true ∧
    (updSect st l2).sect ≠ some Section.MEDIAINFO := by
  unfold updSect
  repeat' split
  all_goals simp_all

theorem classify_mi {f : BDInfoParser} {s : State} {l l2 : String}
    {s' : State} (hd : s.did_first_mediainfo = true)
    (hs : s.sect ≠ some Section.MEDIAINFO)
    (h : classify f s l l2 = some s') :
    s'.did_first_mediainfo = true ∧ s'.sect ≠ some Section.MEDIAINFO ∧
    s'.mediainfo = s.mediainfo := by
  unfold classify at h
  obtain ⟨hd2, hs2⟩ := updSect_mi l2 hd hs
  have hmi : (updSect s l2).mediainfo = s.mediainfo := (updSect_frame s l2).2.2.2.1
  unfold classifyAt at h
  split at h
  · obtain ⟨h1, -, h3, -, -, -, h7, -⟩ := dispatchQS_frame h
    refine ⟨by rw [h7]; exact hd2, by rw [h3]; exact hs2, by rw [h1]; exact hmi⟩
  · obtain ⟨h1, -, h3, -, -, h6, -⟩ := dispatchPR_frame h
    refine ⟨by rw [h6]; exact hd2, by rw [h3]; exact hs2, by rw [h1]; exact hmi⟩
  · simp_all
  · obtain ⟨-, -, -, h4, -, -, -, -, h9, h10⟩ := dispatchEAC_frame h
    refine ⟨by rw [h9]; exact hd2, ?_, by rw [h4]; exact hmi⟩
    rcases h10 with h10 | h10
    · rw [h10]; exact fun hc => Option.noConfusion hc
    · rw [h10]; exact hs2
  · rw [Option.some.injEq] at h; subst h
    exact ⟨hd2, hs2, hmi⟩

theorem step_mi {cfg : Config} {f : BDInfoParser} {st : State} {l : String}
    {st' : State} (hd : st.did_first_mediainfo = true)
    (hs : st.sect ≠ some Section.MEDIAINFO)
    (h : step cfg f st l = some st') :
    st'.did_first_mediainfo = true ∧ st'.sect ≠ some Section.MEDIAINFO ∧
    st'.mediainfo = st.mediainfo := by
  unfold step at h
  split at h
  · rw [Option.some.injEq] at h; subst h; exact ⟨hd, hs, rfl⟩
  · split at h
    · rw [Option.some.injEq] at h; subst h; exact ⟨hd, hs, rfl⟩
    · have ha := applySkip_frame cfg st l
      have hd' : (applySkip cfg st l).did_first_mediainfo = true := by
        rw [ha.2.2.2.2.2.2.2.2.2]; exact hd
      have hs' : (applySkip cfg st l).sect ≠ some Section.MEDIAINFO := by
        rw [ha.2.2.2.2.2.2.1]; exact hs
      obtain ⟨h1, h2, h3⟩ := classify_mi hd' hs' h
      exact ⟨h1, h2, by rw [h3, ha.2.2.2.2.1]⟩

theorem runLines_mi (cfg : Config) (f : BDInfoParser) :
    ∀ (ls : List String) (st st' : State),
      st.did_first_mediainfo = true → st.sect ≠ some Section.MEDIAINFO →
      runLines cfg f st ls = some st' →
      st'.mediainfo = st.mediainfo ∧ st'.did_first_mediainfo = true ∧
      st'.sect ≠ some Section.MEDIAINFO := by
  intro ls
  induction ls with
  | nil =>
    intro st st' hd hs h
    rw [runLines, Option.some.injEq] at h
    subst h
    exact ⟨rfl, hd, hs⟩
  | cons l ls ih =>
    intro st st' hd hs h
    rw [runLines] at h
    split at h
    · rw [Option.some.injEq] at h; subst h; exact ⟨rfl, hd, hs⟩
    · cases hstep : step cfg f st l with
      | none => rw [hstep] at h; exact Option.noConfusion h
      | some s1 =>
        rw [hstep] at h
        obtain ⟨h1, h2, h3⟩ := step_mi hd hs hstep
        obtain ⟨g1, g2, g3⟩ := ih s1 st' h1 h2 h
        exact ⟨by rw [g1, h3], g2, g3⟩

theorem updSect_qs {st : State} (l2 : String)
    (hs : st.sect ≠ some Section.QUICK_SUMMARY)
    (hl : strStarts l2 "quick summary" = false) :
    (updSect st l2).sect ≠ some Section.QUICK_SUMMARY := by
  unfold updSect
  repeat' split
  all_goals simp_all

theorem classify_sub {f : BDInfoParser} {s : State} {l l2 : String}
    {s' : State} (hs : s.sect ≠ some Section.QUICK_SUMMARY)
    (hl : strStarts l2 "quick summary" = false)
    (h : classify f s l l2 = some s') :
    s'.subtitle = s.subtitle ∧ s'.sect ≠ some Section.QUICK_SUMMARY := by
  unfold classify at h
  have hq := updSect_qs l2 hs hl
  have hsub : (updSect s l2).subtitle = s.subtitle := (updSect_frame s l2).2.2.1
  unfold classifyAt at h
  split at h
  · exact absurd (by assumption) hq
  · obtain ⟨-, -, h3, h4, -, -, -⟩ := dispatchPR_frame h
    exact ⟨by rw [h4]; exact hsub, by rw [h3]; exact hq⟩
  · rw [Option.some.injEq] at h; subst h
    exact ⟨hsub, hq⟩
  · obtain ⟨-, -, h3, -, -, -, -, -, -, h10⟩ := dispatchEAC_frame h
    refine ⟨by rw [h3]; exact hsub, ?_⟩
    rcases h10 with h10 | h10
    · rw [h10]; exact fun hc => Option.noConfusion hc
    · rw [h10]; exact hq
  · rw [Option.some.injEq] at h; subst h
    exact ⟨hsub, hq⟩

theorem step_sub {cfg : Config} {f : BDInfoParser} {st : State} {l : String}
    {st' : State} (hs : st.sect ≠ some Section.QUICK_SUMMARY)
    (hl : strStarts (pyLower (pyStrip l)) "quick summary" = false)
    (h : step cfg f st l = some st') :
    st'.subtitle = st.subtitle ∧ st'.sect ≠ some Section.QUICK_SUMMARY := by
  unfold step at h
  split at h
  · rw [Option.some.injEq] at h; subst h; exact ⟨rfl, hs⟩
  · split at h
    · rw [Option.some.injEq] at h; subst h; exact ⟨rfl, hs⟩
    · have ha := applySkip_frame cfg st l
      have hs' : (applySkip cfg st l).sect ≠ some Section.QUICK_SUMMARY := by
        rw [ha.2.2.2.2.2.2.1]; exact hs
      obtain ⟨h1, h2⟩ := classify_sub hs' hl h
      exact ⟨by rw [h1, ha.2.2.1], h2⟩

theorem runLines_sub (cfg : Config) (f : BDInfoParser) :
    ∀ (ls : List String) (st st' : State),
      st.sect ≠ some Section.QUICK_SUMMARY →
      (∀ l ∈ ls, strStarts (pyLower (pyStrip l)) "quick summary" = false) →
      runLines cfg f st ls = some st' →
      st'.subtitle = st.subtitle ∧ st'.sect ≠ some Section.QUICK_SUMMARY := by
  intro ls
  induction ls with
  | nil =>
    intro st st' hs hall h
    rw [runLines, Option.some.injEq] at h
    subst h
    exact ⟨rfl, hs⟩
  | cons l ls ih =>
    intro st st' hs hall h
    rw [runLines] at h
    split at h
    · rw [Option.some.injEq] at h; subst h; exact ⟨rfl, hs⟩
    · cases hstep : step cfg f st l with
      | none => rw [hstep] at h; exact Option.noConfusion h
      | some s1 =>
        rw [hstep] at h
        obtain ⟨h1, h2⟩ := step_sub hs (hall l (by simp)) hstep
        obtain ⟨g1, g2⟩ := ih s1 st' h2 (fun x hx => hall x (by simp [hx])) h
        exact ⟨by rw [g1, h1], g2⟩

theorem dictGet_none : ∀ (m : List (String × String)) (c : String),
    c ∉ m.map Prod.fst → dictGet m c = none := by
  intro m
  induction m with
  | nil => intro c _; rfl
  | cons kv rest ih =>
    intro c h
    obtain ⟨k, v⟩ := kv
    simp only [List.map_cons, List.mem_cons] at h
    push_neg at h
    rw [dictGet, if_neg h.1]
    exact ih c h.2

/-! ## Claim theorems -/

/-- C4: With the truncation configuration absent (empty cutoff text,
empty cutoff method, and the default prefix list produced by an empty
environment value), the Truncation Policy Evaluator returns `Continue`
for every line: the hard cutoff predicate is false on every line and
the soft-skip scan leaves every state unchanged; the evaluation is a
total function, so it cannot fail. -/
theorem truncation_disabled_when_absent (l : String) (st : State) :
    truncationDecision cfgOff l = PolicyDecision.Continue ∧
    isIgnoreAfterLine cfgOff l = false ∧
    applySkip cfgOff st l = st := by
  have hg : skipGuard cfgOff = false := by decide
  have h1 : isIgnoreAfterLine cfgOff l = false := by
    unfold isIgnoreAfterLine
    rw [if_neg (by decide), if_neg (by decide)]
  refine ⟨?_, h1, ?_⟩
  · unfold truncationDecision
    rw [h1, hg]
    simp
  · unfold applySkip
    rw [hg]
    simp

/-- C5: For every configuration, the loop over the input lines equals
the loop over the lines strictly before the first line on which
`_isIgnoreAfterLine` holds (so a triggering line and everything after
it contribute nothing); moreover a triggering line stops the loop
immediately, before blank-line handling and before the soft-skip
check (the accumulated state is returned for every state, including
states with the skip flag set, and for blank triggering lines); and
`parse` therefore only processes the prefix before the first
triggering line. -/
theorem hard_cutoff_truncates (cfg : Config) (f : BDInfoParser) :
    (∀ (st : State) (ls : List String),
       runLines cfg f st ls
         = runLines cfg f st
             (ls.takeWhile (fun l => !(isIgnoreAfterLine cfg l)))) ∧
    (∀ (st : State) (l : String) (ls : List String),
       isIgnoreAfterLine cfg l = true →
       runLines cfg f st (l :: ls) = some st) ∧
    (∀ text : String,
       parse cfg f text
         = runLines cfg f initState
             ((splitlines text).takeWhile (fun l => !(isIgnoreAfterLine cfg l)))) := by
  have hmain : ∀ (ls : List String) (st : State),
      runLines cfg f st ls
        = runLines cfg f st
            (ls.takeWhile (fun l => !(isIgnoreAfterLine cfg l))) := by
    intro ls
    induction ls with
    | nil => intro st; rfl
    | cons l ls ih =>
      intro st
      cases hig : isIgnoreAfterLine cfg l with
      | true =>
        rw [runLines, if_pos hig]
        simp [List.takeWhile_cons, hig, runLines]
      | false =>
        rw [runLines, if_neg (by rw [hig]; exact Bool.false_ne_true)]
        rw [List.takeWhile_cons]
        simp only [hig, Bool.not_false, if_pos]
        rw [runLines, if_neg (by rw [hig]; exact Bool.false_ne_true)]
        cases hstep : step cfg f st l with
        | none => rfl
        | some s1 => exact ih s1
  refine ⟨fun st ls => hmain ls st, ?_, ?_⟩
  · intro st l ls h
    rw [runLines, if_pos h]
  · intro text
    unfold parse
    exact hmain (splitlines text) initState

/-- C5 witness: with method `equals` and cutoff text `""`, the blank
line triggers the cutoff and stops the loop before blank-line handling
could clear anything, so the later line is not processed. -/
theorem hard_cutoff_truncates_w :
    isIgnoreAfterLine (Config.mk "" "equals" [""]) "" = true ∧
    runLines (Config.mk "" "equals" [""]) idF initState
      ["", "quick summary"] = some initState :=
  ⟨by decide,
   (hard_cutoff_truncates (Config.mk "" "equals" [""]) idF).2.1 initState ""
     ["quick summary"] (by decide)⟩

/-- C9: Every name in each of the four codec tables is mapped by
`get_codec_ext` to exactly the extension recorded for it in that
table; a name occurring in none of the tables yields the explicit
not-found value (`False` in Python, `none` here) instead of an error;
and the in-title audio-name lookup behaves the same way on its table.
All lookups are exact, case-sensitive string comparisons on immutable
tables. -/
theorem codec_lookup_spec :
    (∀ kv ∈ video_codecs, get_codec_ext kv.1 = some kv.2) ∧
    (∀ kv ∈ audio_codecs, get_codec_ext kv.1 = some kv.2) ∧
    (∀ kv ∈ sub_codecs, get_codec_ext kv.1 = some kv.2) ∧
    (∀ kv ∈ chapter_codecs, get_codec_ext kv.1 = some kv.2) ∧
    (∀ c : String, c ∉ codec_ext.map Prod.fst → get_codec_ext c = none) ∧
    (∀ kv ∈ audio_codec_title_names,
       get_audio_codec_title_name kv.1 = some kv.2) ∧
    (∀ c : String, c ∉ audio_codec_title_names.map Prod.fst →
       get_audio_codec_title_name c = none) := by
  refine ⟨by decide, by decide, by decide, by decide, ?_, by decide, ?_⟩
  · intro c h
    unfold get_codec_ext
    rw [dictGet_none codec_ext c h]
  · intro c h
    unfold get_audio_codec_title_name
    rw [dictGet_none audio_codec_title_names c h]

/-- C9 witness: concrete lookups through the theorem. -/
theorem codec_lookup_spec_w :
    get_codec_ext "AC3" = some ".ac3" ∧
    get_codec_ext "Chapters" = some ".txt" ∧
    get_codec_ext "Opus" = none ∧
    get_audio_codec_title_name "Dolby Digital Audio" = some "DD" ∧
    get_audio_codec_title_name "AC3" = none :=
  ⟨codec_lookup_spec.2.1 ("AC3", ".ac3") (by decide),
   codec_lookup_spec.2.2.2.1 ("Chapters", ".txt") (by decide),
   codec_lookup_spec.2.2.2.2.1 "Opus" (by decide),
   codec_lookup_spec.2.2.2.2.2.1 ("Dolby Digital Audio", "DD") (by decide),
   codec_lookup_spec.2.2.2.2.2.2 "AC3" (by decide)⟩

/-- C1: the parser is not total.  On a Quick Summary audio line whose
descriptor contains `"ac3 embedded"` without the full
`"(ac3 embedded:"` pattern, the guard on line 118 fires but
`re.split(r"\(ac3 embedded:", ...)` returns a single part, so
`audio_parts[1]` on line 127 raises `IndexError` and `parse` fails
(modelled by `none`), contradicting the never-fails contract. -/
theorem parse_crashes_on_bare_marker :
    parse cfgOff idF "quick summary\naudio: MLP ac3 embedded 5.1" = none := by
  decide

theorem isPrefixOf_trans :
    ∀ (a b c : List Char), a.isPrefixOf b = true → b.isPrefixOf c = true →
      a.isPrefixOf c = true := by
  intro a
  induction a with
  | nil => intro b c _ _; simp [List.isPrefixOf]
  | cons x xs ih =>
    intro b c hab hbc
    cases b with
    | nil => simp [List.isPrefixOf] at hab
    | cons y ys =>
      cases c with
      | nil => simp [List.isPrefixOf] at hbc
      | cons z zs =>
        simp only [List.isPrefixOf, Bool.and_eq_true, beq_iff_eq] at *
        obtain ⟨rfl, hab⟩ := hab
        obtain ⟨rfl, hbc⟩ := hbc
        exact ⟨rfl, ih ys zs hab hbc⟩

/-- A non-whitespace head character survives stripping and is
lower-cased in place. -/
theorem head_strip_lower (l : String) (c : Char) (hc : isPySpace c = false)
    (h : strStarts l (String.mk [c]) = true) :
    strStarts (pyLower (pyStrip l)) (String.mk [Char.toLower c]) = true := by
  have h' : List.isPrefixOf [c] l.toList = true := h
  show List.isPrefixOf [Char.toLower c]
    ((stripChars l.toList).map Char.toLower) = true
  cases hl : l.toList with
  | nil => rw [hl] at h'; simp [List.isPrefixOf] at h'
  | cons d cs =>
    rw [hl] at h'
    simp only [List.isPrefixOf, Bool.and_eq_true, beq_iff_eq] at h'
    obtain ⟨hcd, -⟩ := h'
    subst hcd
    obtain ⟨t', ht'⟩ := stripChars_cons_head c cs hc
    rw [ht', List.map_cons]
    simp [List.isPrefixOf]

/-- Blank-line and skip-flag handling out of the way, a step is a
classification of the line from the state after the skip scan. -/
theorem step_go {cfg : Config} {f : BDInfoParser} {st : State} {l : String}
    (hnb : pyStrip l ≠ "") (hf : st.ignore_next = false) :
    step cfg f st l = classify f (applySkip cfg st l) l (pyLower (pyStrip l)) := by
  unfold step
  rw [if_neg hnb, if_neg (by rw [hf]; exact Bool.false_ne_true)]

theorem updSect_id {st : State} {l2 : String}
    (hq : strStarts l2 "quick summary" = false)
    (hp : strStarts l2 "playlist report" = false)
    (he : strStarts l2 "eac3to v" = false)
    (hg : strStarts l2 "general" = false) : updSect st l2 = st := by
  unfold updSect
  rw [if_neg (by rw [hq]; exact Bool.false_ne_true),
      if_neg (by rw [hp]; exact Bool.false_ne_true),
      if_neg (by rw [he]; exact Bool.false_ne_true),
      if_neg (by rw [hg]; exact Bool.false_ne_true)]

theorem classifyAt_qs {f : BDInfoParser} {st : State} {l l2 : String}
    (h : st.sect = some Section.QUICK_SUMMARY) :
    classifyAt f st l l2 = dispatchQS f st l l2 := by
  unfold classifyAt; rw [h]

theorem classifyAt_pr {f : BDInfoParser} {st : State} {l l2 : String}
    (h : st.sect = some Section.PLAYLIST_REPORT) :
    classifyAt f st l l2 = dispatchPR f st l l2 := by
  unfold classifyAt; rw [h]

theorem classifyAt_mi {f : BDInfoParser} {st : State} {l l2 : String}
    (h : st.sect = some Section.MEDIAINFO) :
    classifyAt f st l l2 = some { st with mediainfo := st.mediainfo ++ [l] } := by
  unfold classifyAt; rw [h]

theorem classifyAt_eac {f : BDInfoParser} {st : State} {l l2 : String}
    (h : st.sect = some Section.EAC3TO_LOG) :
    classifyAt f st l l2 = dispatchEAC st l := by
  unfold classifyAt; rw [h]

theorem classifyAt_none {f : BDInfoParser} {st : State} {l l2 : String}
    (h : st.sect = none) : classifyAt f st l l2 = some st := by
  unfold classifyAt; rw [h]

theorem classify_flag {f : BDInfoParser} {s : State} {l l2 : String}
    {s' : State} (h : classify f s l l2 = some s') :
    s'.ignore_next = s.ignore_next := by
  unfold classify at h
  have hu : (updSect s l2).ignore_next = s.ignore_next :=
    (updSect_frame s l2).2.2.2.2.2.2
  unfold classifyAt at h
  split at h
  · rw [(dispatchQS_frame h).2.2.2.2.2.1]; exact hu
  · rw [(dispatchPR_frame h).2.2.2.2.1]; exact hu
  · rw [Option.some.injEq] at h; subst h; exact hu
  · rw [(dispatchEAC_frame h).2.2.2.2.2.2.2.1]; exact hu
  · rw [Option.some.injEq] at h; subst h; exact hu

theorem dispatchQS_skip {f : BDInfoParser} {s : State} {l l2 : String}
    (hv : strStarts l2 "video:" = false)
    (ha : strStarts l2 "audio:" = false)
    (hsub : strStarts l2 "subtitle:" = false) :
    dispatchQS f s l l2 = some s := by
  unfold dispatchQS
  rw [if_neg (by rw [hv]; exact Bool.false_ne_true),
      if_neg (by rw [ha]; exact Bool.false_ne_true),
      if_neg (by rw [hsub]; exact Bool.false_ne_true)]

theorem dispatchPRrows_acceptance {f : BDInfoParser} {s : State} {l l2 : String}
    {s' : State} (h : dispatchPRrows f s l l2 = some s') :
    ((strStarts l "-" = true ∧ strStarts l2 "-----" = false) →
        s'.video = s.video ∧ s'.audio = s.audio ∧ s'.subtitle = s.subtitle) ∧
    (s'.video ≠ s.video →
       s.sect2 = some Section2.PLAYLIST_VIDEO ∧
       s.sect3 = some Section3.PLAYLIST_INNER_VIDEO) ∧
    (s'.audio ≠ s.audio →
       s.sect2 = some Section2.PLAYLIST_AUDIO ∧
       s.sect3 = some Section3.PLAYLIST_INNER_AUDIO) := by
  unfold dispatchPRrows at h
  split at h
  next hsep =>
    rw [Option.some.injEq] at h
    subst h
    refine ⟨?_, ?_, ?_⟩
    · rintro ⟨-, hd2⟩
      rw [hd2] at hsep
      exact absurd hsep (by decide)
    · intro hne
      exact absurd (by split <;> (first | rfl | (split <;> rfl))) hne
    · intro hne
      exact absurd (by split <;> (first | rfl | (split <;> rfl))) hne
  next hsep =>
    split at h
    next hdash =>
      rw [Option.some.injEq] at h
      subst h
      exact ⟨fun _ => ⟨rfl, rfl, rfl⟩, fun hne => absurd rfl hne,
             fun hne => absurd rfl hne⟩
    next hdash =>
      split at h
      next hcond =>
        rw [Option.some.injEq] at h
        subst h
        refine ⟨?_, fun _ => hcond, ?_⟩
        · rintro ⟨hd1, -⟩
          exact absurd hd1 hdash
        · intro hne; exact absurd (by split <;> rfl) hne
      next hcond1 =>
        split at h
        next hcond =>
          obtain ⟨hv, -, -, -, -, -, -, -, -, -⟩ := prAudioAc3_frame h
          refine ⟨?_, ?_, fun _ => hcond⟩
          · rintro ⟨hd1, -⟩
            exact absurd hd1 hdash
          · intro hne
            exfalso
            apply hne
            rw [hv]
            split <;> rfl
        next hcond2 =>
          rw [Option.some.injEq] at h
          subst h
          exact ⟨fun _ => ⟨rfl, rfl, rfl⟩, fun hne => absurd rfl hne,
                 fun hne => absurd rfl hne⟩

theorem bool_ne_to_false {b : Bool} (h : ¬(b = true)) : b = false := by
  cases b
  · rfl
  · exact absurd rfl h

/-- C8: For a line processed inside the Playlist Report section (state
`PLAYLIST_REPORT`, line non-blank and not suppressed): a non-separator
row beginning with `-` leaves the video, audio and subtitle lists
unchanged regardless of the sub/inner state; the video list grows only
if the sub-state after this line's heading update is `PLAYLIST_VIDEO`
and the inner state set by the most recent separator row is
`PLAYLIST_INNER_VIDEO`; and likewise for the audio list with the audio
states. -/
theorem playlist_row_acceptance (cfg : Config) (f : BDInfoParser)
    (st st' : State) (l : String)
    (hs : st.sect = some Section.PLAYLIST_REPORT)
    (hnb : pyStrip l ≠ "") (hf : st.ignore_next = false)
    (h : step cfg f st l = some st') :
    ((strStarts l "-" = true ∧
      strStarts (pyLower (pyStrip l)) "-----" = false) →
        st'.video = st.video ∧ st'.audio = st.audio ∧
        st'.subtitle = st.subtitle) ∧
    (st'.video ≠ st.video →
       headingSect2 st.sect2 (pyLower (pyStrip l)) = some Section2.PLAYLIST_VIDEO ∧
       st.sect3 = some Section3.PLAYLIST_INNER_VIDEO) ∧
    (st'.audio ≠ st.audio →
       headingSect2 st.sect2 (pyLower (pyStrip l)) = some Section2.PLAYLIST_AUDIO ∧
       st.sect3 = some Section3.PLAYLIST_INNER_AUDIO) := by
  have hA := applySkip_frame cfg st l
  rw [step_go hnb hf] at h
  unfold classify at h
  have hPR : ∀ (s : State), s.video = st.video → s.audio = st.audio →
      s.subtitle = st.subtitle → s.sect2 = st.sect2 → s.sect3 = st.sect3 →
      dispatchPR f s l (pyLower (pyStrip l)) = some st' →
      ((strStarts l "-" = true ∧
        strStarts (pyLower (pyStrip l)) "-----" = false) →
          st'.video = st.video ∧ st'.audio = st.audio ∧
          st'.subtitle = st.subtitle) ∧
      (st'.video ≠ st.video →
         headingSect2 st.sect2 (pyLower (pyStrip l)) = some Section2.PLAYLIST_VIDEO ∧
         st.sect3 = some Section3.PLAYLIST_INNER_VIDEO) ∧
      (st'.audio ≠ st.audio →
         headingSect2 st.sect2 (pyLower (pyStrip l)) = some Section2.PLAYLIST_AUDIO ∧
         st.sect3 = some Section3.PLAYLIST_INNER_AUDIO) := by
    intro s e1 e2 e3 e4 e5 hd
    unfold dispatchPR at hd
    obtain ⟨c1, c2, c3⟩ := dispatchPRrows_acceptance hd
    refine ⟨?_, ?_, ?_⟩
    · intro hdd
      obtain ⟨a1, a2, a3⟩ := c1 hdd
      exact ⟨a1.trans e1, a2.trans e2, a3.trans e3⟩
    · intro hne
      obtain ⟨b1, b2⟩ := c2 (fun hEq => hne (hEq.trans e1))
      constructor
      · rw [← e4]; exact b1
      · rw [← e5]; exact b2
    · intro hne
      obtain ⟨b1, b2⟩ := c3 (fun hEq => hne (hEq.trans e2))
      constructor
      · rw [← e4]; exact b1
      · rw [← e5]; exact b2
  by_cases hqs : strStarts (pyLower (pyStrip l)) "quick summary" = true
  · have hUpd : updSect (applySkip cfg st l) (pyLower (pyStrip l))
        = { applySkip cfg st l with
              sect := some Section.QUICK_SUMMARY
              tp := some BDInfoType.QUICK_SUMMARY } := by
      unfold updSect; rw [if_pos hqs]
    rw [hUpd, classifyAt_qs rfl,
        dispatchQS_skip
          (strStarts_excl _ "quick summary" "video:" (by decide) (by decide) hqs)
          (strStarts_excl _ "quick summary" "audio:" (by decide) (by decide) hqs)
          (strStarts_excl _ "quick summary" "subtitle:" (by decide) (by decide) hqs),
        Option.some.injEq] at h
    subst h
    exact ⟨fun _ => ⟨hA.1, hA.2.1, hA.2.2.1⟩, fun hne => absurd hA.1 hne,
           fun hne => absurd hA.2.1 hne⟩
  · by_cases hpr : strStarts (pyLower (pyStrip l)) "playlist report" = true
    · have hUpd : updSect (applySkip cfg st l) (pyLower (pyStrip l))
          = { applySkip cfg st l with
                sect := some Section.PLAYLIST_REPORT
                tp := some BDInfoType.PLAYLIST_REPORT } := by
        unfold updSect; rw [if_neg hqs, if_pos hpr]
      rw [hUpd, classifyAt_pr rfl] at h
      exact hPR { applySkip cfg st l with
                    sect := some Section.PLAYLIST_REPORT
                    tp := some BDInfoType.PLAYLIST_REPORT }
        hA.1 hA.2.1 hA.2.2.1 hA.2.2.2.2.2.2.2.1 hA.2.2.2.2.2.2.2.2.1 h
    · by_cases he : strStarts (pyLower (pyStrip l)) "eac3to v" = true
      · have hUpd : updSect (applySkip cfg st l) (pyLower (pyStrip l))
            = { applySkip cfg st l with
                  sect := some Section.EAC3TO_LOG
                  eac3to := (applySkip cfg st l).eac3to ++ [[]] } := by
          unfold updSect; rw [if_neg hqs, if_neg hpr, if_pos he]
        rw [hUpd, classifyAt_eac rfl] at h
        obtain ⟨v1, v2, v3, -, -, -, -, -, -, -⟩ := dispatchEAC_frame h
        exact ⟨fun _ => ⟨v1.trans hA.1, v2.trans hA.2.1, v3.trans hA.2.2.1⟩,
               fun hne => absurd (v1.trans hA.1) hne,
               fun hne => absurd (v2.trans hA.2.1) hne⟩
      · by_cases hg : strStarts (pyLower (pyStrip l)) "general" = true
        · cases hdid : (applySkip cfg st l).did_first_mediainfo with
          | true =>
            have hUpd : updSect (applySkip cfg st l) (pyLower (pyStrip l))
                = { applySkip cfg st l with sect := none } := by
              unfold updSect
              rw [if_neg hqs, if_neg hpr, if_neg he, if_pos hg, if_pos hdid]
            rw [hUpd, classifyAt_none rfl, Option.some.injEq] at h
            subst h
            exact ⟨fun _ => ⟨hA.1, hA.2.1, hA.2.2.1⟩,
                   fun hne => absurd hA.1 hne, fun hne => absurd hA.2.1 hne⟩
          | false =>
            have hUpd : updSect (applySkip cfg st l) (pyLower (pyStrip l))
                = { applySkip cfg st l with
                      sect := some Section.MEDIAINFO
                      did_first_mediainfo := true } := by
              unfold updSect
              rw [if_neg hqs, if_neg hpr, if_neg he, if_pos hg,
                  if_neg (by rw [hdid]; exact Bool.false_ne_true)]
            rw [hUpd, classifyAt_mi rfl, Option.some.injEq] at h
            subst h
            exact ⟨fun _ => ⟨hA.1, hA.2.1, hA.2.2.1⟩,
                   fun hne => absurd hA.1 hne, fun hne => absurd hA.2.1 hne⟩
        · rw [updSect_id (bool_ne_to_false hqs) (bool_ne_to_false hpr)
              (bool_ne_to_false he) (bool_ne_to_false hg)] at h
          rw [classifyAt_pr (by rw [hA.2.2.2.2.2.2.1]; exact hs)] at h
          exact hPR _ hA.1 hA.2.1 hA.2.2.1 hA.2.2.2.2.2.2.2.1
            hA.2.2.2.2.2.2.2.2.1 h

/-- C8 witness: inside a playlist audio sub-table, a row starting with
`-` is discarded: no track list changes. -/
theorem playlist_row_acceptance_w :
    (step cfgOff idF stPR "- extra row").map
      (fun s => (s.video, s.audio, s.subtitle)) = some ([], [], []) := by
  cases hstep : step cfgOff idF stPR "- extra row" with
  | none =>
    have hS : (step cfgOff idF stPR "- extra row").isSome = true := by decide
    rw [hstep] at hS
    exact absurd hS (by decide)
  | some st' =>
    obtain ⟨c1, -, -⟩ := playlist_row_acceptance cfgOff idF stPR st'
      "- extra row" rfl (by decide) rfl hstep
    obtain ⟨a1, a2, a3⟩ := c1 ⟨by decide, by decide⟩
    rw [Option.map_some', a1, a2, a3]
    rfl

/-- C10: an input in which no line's trimmed lower-cased form starts
with `quick summary` (in particular an input containing only a
Playlist Report, with any subtitles sub-table and rows) always yields
an empty subtitle list: only the Quick Summary section ever appends to
it. -/
theorem subtitle_only_quick_summary (cfg : Config) (f : BDInfoParser)
    (text : String) (st' : State)
    (hall : ∀ l ∈ splitlines text,
        strStarts (pyLower (pyStrip l)) "quick summary" = false)
    (h : parse cfg f text = some st') :
    st'.subtitle = [] := by
  have hinv := runLines_sub cfg f (splitlines text) initState st'
    (fun hc => Option.noConfusion hc) hall h
  exact hinv.1

/-- C10 witness: a paste holding only a Playlist Report with a
subtitles sub-table and a row yields no subtitle entries. -/
theorem subtitle_only_quick_summary_w :
    (parse cfgOff idF
       "playlist report\nsubtitles:\n-----\nenglish / pgs row").map
      (fun s => s.subtitle) = some [] := by
  cases hEq : parse cfgOff idF
      "playlist report\nsubtitles:\n-----\nenglish / pgs row" with
  | none =>
    have hS : (parse cfgOff idF
        "playlist report\nsubtitles:\n-----\nenglish / pgs row").isSome
        = true := by decide
    rw [hEq] at hS
    exact absurd hS (by decide)
  | some st =>
    rw [Option.map_some',
        subtitle_only_quick_summary cfgOff idF _ st (by decide) hEq]

/-- C7: (1) while no MediaInfo block has been captured, a non-blank,
non-suppressed line whose trimmed lower-cased form starts with
`general` opens MediaInfo capture: the section becomes `MEDIAINFO`,
the capture flag is set, and the line itself is appended to the
metadata; (2) once a capture has happened, such a line sets the
section to `none` instead of reopening capture and leaves the metadata
untouched; (3) once the capture flag is set and the section is not
`MEDIAINFO`, no sequence of further lines can ever change the metadata
sequence again — so the metadata receives lines from a single
contiguous region of the input. -/
theorem mediainfo_single_capture (cfg : Config) (f : BDInfoParser)
    (st : State) (l : String) (ls : List String) :
    (st.did_first_mediainfo = false → st.ignore_next = false →
       pyStrip l ≠ "" → strStarts (pyLower (pyStrip l)) "general" = true →
       (step cfg f st l).map
           (fun s => (s.sect, s.did_first_mediainfo, s.mediainfo))
         = some (some Section.MEDIAINFO, true, st.mediainfo ++ [l])) ∧
    (st.did_first_mediainfo = true → st.ignore_next = false →
       pyStrip l ≠ "" → strStarts (pyLower (pyStrip l)) "general" = true →
       (step cfg f st l).map (fun s => (s.sect, s.mediainfo))
         = some (none, st.mediainfo)) ∧
    (st.did_first_mediainfo = true → st.sect ≠ some Section.MEDIAINFO →
       ∀ st', runLines cfg f st ls = some st' →
         st'.mediainfo = st.mediainfo ∧ st'.did_first_mediainfo = true ∧
         st'.sect ≠ some Section.MEDIAINFO) := by
  refine ⟨?_, ?_, ?_⟩
  · intro hd hf hnb hg
    have hA := applySkip_frame cfg st l
    rw [step_go hnb hf]
    unfold classify
    have hq := strStarts_excl _ "general" "quick summary"
      (by decide) (by decide) hg
    have hp := strStarts_excl _ "general" "playlist report"
      (by decide) (by decide) hg
    have he := strStarts_excl _ "general" "eac3to v"
      (by decide) (by decide) hg
    have hUpd : updSect (applySkip cfg st l) (pyLower (pyStrip l))
        = { applySkip cfg st l with
              sect := some Section.MEDIAINFO
              did_first_mediainfo := true } := by
      unfold updSect
      rw [if_neg (by rw [hq]; exact Bool.false_ne_true),
          if_neg (by rw [hp]; exact Bool.false_ne_true),
          if_neg (by rw [he]; exact Bool.false_ne_true),
          if_pos hg,
          if_neg (by rw [hA.2.2.2.2.2.2.2.2.2, hd]; exact Bool.false_ne_true)]
    rw [hUpd, classifyAt_mi rfl, Option.map_some']
    simp [hA.2.2.2.2.1]
  · intro hd hf hnb hg
    have hA := applySkip_frame cfg st l
    rw [step_go hnb hf]
    unfold classify
    have hq := strStarts_excl _ "general" "quick summary"
      (by decide) (by decide) hg
    have hp := strStarts_excl _ "general" "playlist report"
      (by decide) (by decide) hg
    have he := strStarts_excl _ "general" "eac3to v"
      (by decide) (by decide) hg
    have hUpd : updSect (applySkip cfg st l) (pyLower (pyStrip l))
        = { applySkip cfg st l with sect := none } := by
      unfold updSect
      rw [if_neg (by rw [hq]; exact Bool.false_ne_true),
          if_neg (by rw [hp]; exact Bool.false_ne_true),
          if_neg (by rw [he]; exact Bool.false_ne_true),
          if_pos hg,
          if_pos (by rw [hA.2.2.2.2.2.2.2.2.2]; exact hd)]
    rw [hUpd, classifyAt_none rfl, Option.map_some']
    simp [hA.2.2.2.2.1]
  · intro hd hs st' h
    exact runLines_mi cfg f ls st st' hd hs h

/-- C7 witness: after a capture has happened, a later `General` line
sets the section to `none` and leaves the metadata unchanged. -/
theorem mediainfo_single_capture_w :
    (step cfgOff idF { initState with did_first_mediainfo := true }
       "General").map (fun s => (s.sect, s.mediainfo))
      = some (none, []) :=
  (mediainfo_single_capture cfgOff idF
    { initState with did_first_mediainfo := true } "General" []).2.1
    rfl rfl (by decide) (by decide)

/-- C3 (amended): inside an open eac3to log, a non-blank,
non-suppressed line that matches no section heading is appended to the
most recently opened log unless it begins (raw, case-sensitively) with
`Done.`, which closes the log without appending; a line whose trimmed
lower-cased form starts with `eac3to v` always opens a fresh,
independent log whose first element is the header line itself, flat in
the log-of-logs (so logs never nest); and two headers each closed by
their own `Done.` line produce two independent log sequences. -/
theorem eac3to_log_behavior (cfg : Config) (f : BDInfoParser) (st : State)
    (l : String) :
    (st.sect = some Section.EAC3TO_LOG → st.ignore_next = false →
     pyStrip l ≠ "" →
     strStarts (pyLower (pyStrip l)) "quick summary" = false →
     strStarts (pyLower (pyStrip l)) "playlist report" = false →
     strStarts (pyLower (pyStrip l)) "eac3to v" = false →
     strStarts (pyLower (pyStrip l)) "general" = false →
       ((strStarts l "Done." = true →
           step cfg f st l = some { applySkip cfg st l with sect := none }) ∧
        (strStarts l "Done." = false →
           step cfg f st l = (appendLast st.eac3to l).map
             (fun e => { applySkip cfg st l with eac3to := e })))) ∧
    (st.ignore_next = false → pyStrip l ≠ "" →
     strStarts (pyLower (pyStrip l)) "eac3to v" = true →
       step cfg f st l = some { applySkip cfg st l with
                                  sect := some Section.EAC3TO_LOG
                                  eac3to := st.eac3to ++ [[l]] }) ∧
    ((runLines cfgOff idF initState
        ["eac3to v1.0", "line a", "Done.", "eac3to v2.0", "line b", "Done."]).map
        (fun s => s.eac3to)
      = some [["eac3to v1.0", "line a"], ["eac3to v2.0", "line b"]]) := by
  refine ⟨?_, ?_, by decide⟩
  · intro hsect hf hnb hq hp he hg
    have hA := applySkip_frame cfg st l
    constructor
    · intro hdone
      rw [step_go hnb hf]
      unfold classify
      rw [updSect_id hq hp he hg,
          classifyAt_eac (by rw [hA.2.2.2.2.2.2.1]; exact hsect)]
      unfold dispatchEAC
      rw [if_pos hdone]
    · intro hdone
      rw [step_go hnb hf]
      unfold classify
      rw [updSect_id hq hp he hg,
          classifyAt_eac (by rw [hA.2.2.2.2.2.2.1]; exact hsect)]
      unfold dispatchEAC
      rw [if_neg (by rw [hdone]; exact Bool.false_ne_true),
          hA.2.2.2.2.2.1]
  · intro hf hnb he2
    have hA := applySkip_frame cfg st l
    have hq := strStarts_excl _ "eac3to v" "quick summary"
      (by decide) (by decide) he2
    have hp := strStarts_excl _ "eac3to v" "playlist report"
      (by decide) (by decide) he2
    rw [step_go hnb hf]
    unfold classify
    have hUpd : updSect (applySkip cfg st l) (pyLower (pyStrip l))
        = { applySkip cfg st l with
              sect := some Section.EAC3TO_LOG
              eac3to := (applySkip cfg st l).eac3to ++ [[]] } := by
      unfold updSect
      rw [if_neg (by rw [hq]; exact Bool.false_ne_true),
          if_neg (by rw [hp]; exact Bool.false_ne_true), if_pos he2]
    rw [hUpd, classifyAt_eac rfl]
    unfold dispatchEAC
    have hD : strStarts l "Done." = false := by
      cases hDD : strStarts l "Done." with
      | false => rfl
      | true =>
        exfalso
        have h1 : strStarts l (String.mk ['D']) = true :=
          isPrefixOf_trans _ _ _ (by decide) hDD
        have h2 := head_strip_lower l 'D' (by decide) h1
        have h3 := strStarts_excl (pyLower (pyStrip l)) (String.mk ['d'])
          "eac3to v" (by decide) (by decide) h2
        rw [he2] at h3
        exact absurd h3 (by decide)
    rw [if_neg (by rw [hD]; exact Bool.false_ne_true)]
    simp [appendLast_snoc, hA.2.2.2.2.2.1]

/-- C3 witness: an open log absorbs an ordinary line. -/
theorem eac3to_log_behavior_w :
    step cfgOff idF stE "payload line"
      = some { stE with eac3to := [["eac3to v1.0", "payload line"]] } := by
  have h := ((eac3to_log_behavior cfgOff idF stE "payload line").1
    rfl rfl (by decide) (by decide) (by decide) (by decide) (by decide)).2
    (by decide)
  rw [h]
  decide

/-- C3 counterexample: a line opening another section (`quick
summary`) also stops lines from being appended to the open log, with
no `Done.` line anywhere in the input — the claim's "closed only by
`Done.` or end of input" fails.  The lines after the heading (here
`def`) appear in no log. -/
theorem eac3to_closed_by_heading_cex :
    (parse cfgOff idF "eac3to v1\nabc\nquick summary\ndef").map
        (fun s => s.eac3to) = some [["eac3to v1", "abc"]] ∧
    (parse cfgOff idF "eac3to v1\nabc\nquick summary\ndef").map
        (fun s => s.eac3to.any (fun log => log.contains "def")) = some false := by
  exact ⟨by decide, by decide⟩

/-- C2 (amended): for a Quick Summary audio line whose descriptor is
split by the (case-insensitive) pattern `(ac3 embedded:` into a part
before and a part after the marker, exactly two entries are appended
to the audio list: the formatted text preceding the marker, then the
formatted synthesized string `Compatibility Track / Dolby Digital
Audio / ` followed by the full text after the marker with surrounding
whitespace and trailing `)` characters removed (for the spec's example
line that synthesized string is `Compatibility Track / Dolby Digital
Audio / Dolby Digital Audio 2.0 / 48 kHz / 192 kbps`, which does not
begin with `... / 48 kHz / 192 kbps`). -/
theorem quick_summary_compat_split (cfg : Config) (f : BDInfoParser)
    (st : State) (l r p0 p1 : String) (ps : List String)
    (hs : st.sect = some Section.QUICK_SUMMARY)
    (hf : st.ignore_next = false)
    (hnb : pyStrip l ≠ "")
    (ha : strStarts (pyLower (pyStrip l)) "audio:" = true)
    (hr : afterColon l = some r)
    (hm : containsCI "ac3 embedded" (pyStrip r) = true)
    (hsplit : ac3Split (pyStrip r) = p0 :: p1 :: ps) :
    (step cfg f st l).map (fun s => s.audio)
      = some (st.audio ++
          [f.format_track_name p0,
           f.format_track_name ("Compatibility Track / Dolby Digital Audio / "
             ++ pyRstripParen (pyStrip p1))]) := by
  have hA := applySkip_frame cfg st l
  rw [step_go hnb hf]
  unfold classify
  have hq := strStarts_excl _ "audio:" "quick summary"
    (by decide) (by decide) ha
  have hp := strStarts_excl _ "audio:" "playlist report"
    (by decide) (by decide) ha
  have he := strStarts_excl _ "audio:" "eac3to v" (by decide) (by decide) ha
  have hg := strStarts_excl _ "audio:" "general" (by decide) (by decide) ha
  have hv := strStarts_excl _ "audio:" "video:" (by decide) (by decide) ha
  rw [updSect_id hq hp he hg,
      classifyAt_qs (by rw [hA.2.2.2.2.2.2.1]; exact hs)]
  unfold dispatchQS
  rw [if_neg (by rw [hv]; exact Bool.false_ne_true), if_pos ha, hr]
  simp [hm, hsplit, hA.2.1]

/-- C2 witness: the spec's example line, with the identity formatter,
appends exactly the two entries computed by the source. -/
theorem quick_summary_compat_split_w :
    (step cfgOff idF stQS
       "Audio: DTS-HD Master Audio 5.1 (ac3 embedded: Dolby Digital Audio 2.0 / 48 kHz / 192 kbps)").map
      (fun s => s.audio)
      = some ["DTS-HD Master Audio 5.1 ",
              "Compatibility Track / Dolby Digital Audio / Dolby Digital Audio 2.0 / 48 kHz / 192 kbps"] := by
  have h := quick_summary_compat_split cfgOff idF stQS
    "Audio: DTS-HD Master Audio 5.1 (ac3 embedded: Dolby Digital Audio 2.0 / 48 kHz / 192 kbps)"
    " DTS-HD Master Audio 5.1 (ac3 embedded: Dolby Digital Audio 2.0 / 48 kHz / 192 kbps)"
    "DTS-HD Master Audio 5.1 "
    " Dolby Digital Audio 2.0 / 48 kHz / 192 kbps)" []
    rfl rfl (by decide) (by decide) (by decide) (by decide) (by decide)
  rw [h]
  decide

/-- C2 counterexample: on the claim's own example line the audio list
does get exactly two entries, but the second does not begin with
`Compatibility Track / Dolby Digital Audio / 48 kHz / 192 kbps` as
claimed (the text after the marker is kept whole); and a quick-summary
audio line containing `ac3 embedded` without the full
`(ac3 embedded:` pattern does not append two entries at all — parse
fails on it. -/
theorem quick_summary_compat_example_cex :
    (parse cfgOff idF
       "quick summary\nAudio: DTS-HD Master Audio 5.1 (ac3 embedded: Dolby Digital Audio 2.0 / 48 kHz / 192 kbps)").map
      (fun s => (s.audio.length,
                 strStarts (s.audio.getD 1 "")
                   "Compatibility Track / Dolby Digital Audio / 48 kHz / 192 kbps"))
      = some (2, false) ∧
    parse cfgOff idF "quick summary\naudio: DTS-HD ac3 embedded 2.0" = none := by
  exact ⟨by decide, by decide⟩

/-- C6 (amended): when the configured skip-prefix list passes the
code's enable guard (non-empty with a non-empty first entry): (a) a
non-blank line whose trimmed lower-cased form starts with one of the
configured prefixes, met with the flag clear, sets the soft-skip flag
and is still classified normally (the step equals classifying the line
from the state with the flag set, and classification never clears the
flag); (b) while the flag is set, a non-blank line is dropped with the
state unchanged; (c) a blank line clears the flag and appends nothing,
so normal processing resumes with the next line. -/
theorem soft_skip_behavior (cfg : Config) (f : BDInfoParser) (st : State)
    (l : String) :
    (pyStrip l ≠ "" → st.ignore_next = false → skipGuard cfg = true →
     matchesSkip cfg l = true →
       step cfg f st l
         = classify f { st with ignore_next := true } l (pyLower (pyStrip l)) ∧
       (∀ st', step cfg f st l = some st' → st'.ignore_next = true)) ∧
    (pyStrip l ≠ "" → st.ignore_next = true → step cfg f st l = some st) ∧
    (pyStrip l = "" → step cfg f st l = some { st with ignore_next := false }) := by
  refine ⟨?_, ?_, ?_⟩
  · intro hnb hf hG hM
    have hskip : applySkip cfg st l = { st with ignore_next := true } := by
      unfold applySkip
      rw [if_pos (by rw [hG, hM]; rfl)]
    have hstep : step cfg f st l
        = classify f { st with ignore_next := true } l (pyLower (pyStrip l)) := by
      rw [step_go hnb hf, hskip]
    refine ⟨hstep, ?_⟩
    intro st' h
    rw [hstep] at h
    rw [classify_flag h]
  · intro hnb hf
    unfold step
    rw [if_neg hnb, if_pos hf]
  · intro hb
    unfold step
    rw [if_pos hb]

/-- C6 witness: with prefix list `["note"]`, a matching line sets the
flag, a non-blank line is dropped while the flag is set, and a blank
line clears the flag. -/
theorem soft_skip_behavior_w :
    (step cfgNote idF initState "NOTE to uploader").map
        (fun s => s.ignore_next) = some true ∧
    step cfgNote idF { initState with ignore_next := true } "dropped line"
      = some { initState with ignore_next := true } ∧
    step cfgNote idF { initState with ignore_next := true } ""
      = some initState := by
  refine ⟨?_, ?_, ?_⟩
  · cases hstep : step cfgNote idF initState "NOTE to uploader" with
    | none =>
      have hS : (step cfgNote idF initState "NOTE to uploader").isSome
          = true := by decide
      rw [hstep] at hS
      exact absurd hS (by decide)
    | some st' =>
      have h2 := ((soft_skip_behavior cfgNote idF initState
        "NOTE to uploader").1 (by decide) rfl (by decide) (by decide)).2
        st' hstep
      rw [Option.map_some', h2]
  · exact (soft_skip_behavior cfgNote idF
      { initState with ignore_next := true } "dropped line").2.1
      (by decide) rfl
  · have h := (soft_skip_behavior cfgNote idF
      { initState with ignore_next := true } "").2.2 (by decide)
    rw [h]
    rfl

/-- C6 counterexample: with the configured prefix list `["", "note"]`
— a non-empty set of prefixes containing `note` — a line whose trimmed
lower-cased form starts with the configured prefix `note` does not set
the soft-skip flag, because the code disables the whole mechanism
whenever the first list entry is empty. -/
theorem skip_first_empty_entry_cex :
    cfgBadFirst.ignore_until_blank_line_prefixes ≠ [] ∧
    "note" ∈ cfgBadFirst.ignore_until_blank_line_prefixes ∧
    strStarts (pyLower (pyStrip "note to uploader")) "note" = true ∧
    (step cfgBadFirst idF initState "note to uploader").map
      (fun s => s.ignore_next) = some false := by
  exact ⟨by decide, by decide, by decide, by decide⟩
